import Mathlib

/-
Shallow embedding of `cluster.py` from the qemu-provisioning repository.

Modelling conventions, used throughout:
* Python dicts holding settings are association lists `Dict := List (String × Val)`
  where the first matching key wins and assignment of a fresh key appends.
* The filesystem is an association list of (path, content) entries; directories
  are entries with content `.dir`; files written by external tools
  (qemu-img, cloud-localds, HTTP downloads) are `.external cmd` entries that
  record the command that produced them instead of executing it.
* `random.randint(0x00, 0xff)` draws and `get_free_port()` probes are explicit
  input streams (`Nat → Fin 256 × Fin 256 × Fin 256` and `Nat → Nat`); the code
  consumes three byte-triples per provisioned node (one per NIC) and one port.
* YAML documents emitted by `yaml.dump`/`yaml.safe_dump` are modelled as the
  structured data being dumped (`UserDoc`, `Netplan`), since serialization is
  injective on that data; plain-text files keep their exact `String` contents.
* `os.linesep` is `"\n"` (the tool targets Linux hosts).
* Errors (`KeyError` on dict lookups, `ValueError` raises) become `Except Err`.
-/

/-- A Python/YAML value as stored in the settings dicts of `cluster.py`. -/
inductive Val where
  | str (s : String)
  | nat (n : Nat)
  | bool (b : Bool)
  | null
  | list (l : List Val)
  | dict (d : List (String × Val))

/-- A Python dict with string keys: association list, first match wins. -/
abbrev Dict := List (String × Val)

/-- Errors raised by the translated code (`KeyError`, `ValueError`). -/
inductive Err where
  | keyError (k : String)
  | valueError (msg : String)
deriving DecidableEq

/-- Python dict lookup `d[k]` (first matching entry). -/
def dictLookup (d : Dict) (k : String) : Option Val :=
  (d.find? (fun e => e.1 == k)).map (fun e => e.2)

/-- Python dict membership test `k in d`. -/
def dictContains (d : Dict) (k : String) : Bool :=
  (dictLookup d k).isSome

/-- Python dict assignment `d[k] = v`: replace in place if the key is
present, otherwise append at the end (Python dicts preserve insertion order). -/
def dictInsert : Dict → String → Val → Dict
  | [], k, v => [(k, v)]
  | e :: rest, k, v => if e.1 == k then (k, v) :: rest else e :: dictInsert rest k v

/-- Dict lookup that raises `KeyError` on a missing key, as `node[key]` does. -/
def getV (d : Dict) (k : String) : Except Err Val :=
  match dictLookup d k with
  | some v => .ok v
  | none => .error (.keyError k)

/-- Dict lookup of a value that the Python code then uses as a `str`
(string concatenation, `str.strip`, `urlparse`); a non-string value would
raise `TypeError` there, modelled as a `valueError`. -/
def getS (d : Dict) (k : String) : Except Err String :=
  match dictLookup d k with
  | some (.str s) => .ok s
  | some _ => .error (.valueError (k ++ " is not a string"))
  | none => .error (.keyError k)

/-- Dict lookup of a value the code then iterates over (`for size in ...`);
a non-list would raise `TypeError`, modelled as a `valueError`. -/
def getList (d : Dict) (k : String) : Except Err (List Val) :=
  match dictLookup d k with
  | some (.list l) => .ok l
  | some _ => .error (.valueError (k ++ " is not a list"))
  | none => .error (.keyError k)

/-- Python `str(value)` as used in `.format`/f-string interpolation.
List/dict rendering is abbreviated; no property proved below depends on it
(those values are only interpolated into recorded shell command strings). -/
def valToString : Val → String
  | .str s => s
  | .nat n => toString n
  | .bool b => if b then "True" else "False"
  | .null => "None"
  | .list _ => "<list>"
  | .dict _ => "<dict>"

/-- Monadic map over `Except`, evaluating left to right and stopping at the first
error — the evaluation order of the Python `for` loops being modelled. -/
def mapExc (f : α → Except Err β) : List α → Except Err (List β)
  | [] => .ok []
  | x :: xs => do
    let y ← f x
    let ys ← mapExc f xs
    .ok (y :: ys)

/-! ### MAC address generation (`random_mac`, lines 103-136) -/

/-- One lowercase hex digit, as produced by Python `"%02x" % b`. -/
def hexDigit : Nat → Char
  | 0 => '0' | 1 => '1' | 2 => '2' | 3 => '3'
  | 4 => '4' | 5 => '5' | 6 => '6' | 7 => '7'
  | 8 => '8' | 9 => '9' | 10 => 'a' | 11 => 'b'
  | 12 => 'c' | 13 => 'd' | 14 => 'e' | 15 => 'f'
  | _ => 'x'

/-- Python `"%02x" % b` for a byte value `b < 256`: exactly two hex digits. -/
def hex2 (b : Nat) : String :=
  ⟨[hexDigit (b / 16), hexDigit (b % 16)]⟩

/-- Python `':'.join(strs)`. -/
def joinColon : List String → String
  | [] => ""
  | [x] => x
  | x :: xs => x ++ ":" ++ joinColon xs

/-- The OUI table of `random_mac`: `xen` and `qemu` prefixes, with a
`KeyError` on any other key falling back to `xen`. -/
def ouiFor (mac_type : String) : List Nat :=
  if mac_type = "xen" then [0x00, 0x16, 0x3E]
  else if mac_type = "qemu" then [0x52, 0x54, 0x00]
  else [0x00, 0x16, 0x3E]

/-- A triple of random byte draws (`random.randint(0x00, 0xff)` three times). -/
abbrev B3 := Fin 256 × Fin 256 × Fin 256

/-- Function `random_mac(mac_type)` with the three random byte draws made explicit:
OUI prefix plus three random bytes, each `"%02x"`-formatted, joined by `:`. -/
def random_mac (mac_type : String) (b : B3) : String :=
  joinColon ((ouiFor mac_type ++ [b.1.val, b.2.1.val, b.2.2.val]).map hex2)

/-! ### Settings flattening (`IDeployer.flatten_settings`, lines 196-203) -/

/-- The inheritable keys copied from cluster level to node level. -/
def inheritableKeys : List String :=
  ["clusterName", "domainName", "imagePath", "systemDiskSize", "dataDiskSizes",
   "cpu", "mem", "mtu", "gateway", "nameserver", "guestOs", "authorized-keys",
   "qemubin"]

/-- One step of the flattening loop body:
`node[key] = self.settings[key] if key not in node else node[key]`. -/
def flattenStep (base : Dict) (acc : Dict) (k : String) : Except Err Dict :=
  if dictContains acc k then .ok acc
  else
    match dictLookup base k with
    | some v => .ok (dictInsert acc k v)
    | none => .error (.keyError k)

/-- Flattening of a single node record over all inheritable keys. -/
def flatten_node (base : Dict) (nd : Dict) : Except Err Dict :=
  inheritableKeys.foldlM (flattenStep base) nd

/-- A cluster spec: the cluster-level settings dict plus its `nodes` list
(the Python code keeps the nodes inside `settings["nodes"]`; no inheritable
key is named `nodes`, so splitting them off is behaviour-preserving). -/
structure Settings where
  base : Dict
  nodes : List Dict

/-- Method `IDeployer.flatten_settings`: populate cluster defaults onto every node. -/
def flatten_settings (s : Settings) : Except Err Settings := do
  let nodes2 ← mapExc (flatten_node s.base) s.nodes
  .ok ⟨s.base, nodes2⟩

/-! ### Generated cloud-init documents -/

/-- One entry of the `users:` list in the generated `user-data` document.
Fields the Python code does not set on an account are `none`. -/
structure UserAccount where
  name : String
  home : Option String := none
  shell : Option String := none
  groups : Option String := none
  sudoRule : Option String := none   -- the "sudo:" key of the account
  lock_passwd : Option Bool := none
  passwd : Option String := none
  sshAuthorizedKeys : List Val := []

/-- The `user-data` cloud-config document (the data passed to `yaml.dump`,
plus the `bootcmd` block that the CentOS8-family override appends as text —
appending `bootcmd:\n    - ...` to a dumped YAML mapping adds exactly this
top-level key to the document). -/
structure UserDoc where
  hostname : String
  fqdn : String
  manage_etc_hosts : Bool
  ssh_pwauth : Bool
  disable_root : Bool
  users : List UserAccount
  bootcmd : List String := []

/-- The netplan-v2 `network-config` document built by the Ubuntu-family
`gen_netconf` (the data passed to `yaml.safe_dump`). -/
structure Netplan where
  matchMac : String            -- ethernets.id0.match.macaddress
  setName : String             -- ethernets.id0.set-name
  addresses : List Val         -- ethernets.eth0.addresses
  gateway4 : Val
  nsAddresses : List Val       -- ethernets.eth0.nameservers.addresses
  nsSearch : List String       -- ethernets.eth0.nameservers.search
  mtu : Val

/-- Python `str.strip(s, ".")`: remove leading and trailing dots. -/
def stripDots (s : String) : String :=
  ⟨((s.data.dropWhile (· == '.')).reverse.dropWhile (· == '.')).reverse⟩

/-! ### Node provisioner variants

The Python class hierarchy
`NodeDeployer_Ubuntu ← {CentOS7 ← CentOS8 ← Alma8 ← Alma9, Debian}`
is modelled as one inductive of variants; a subclass declared with `pass`
(Debian, CentOS7, Alma8, Alma9) shares the generator of its parent. -/
inductive Provisioner where
  | ubuntu | debian | centos7 | centos8 | alma8 | alma9
deriving DecidableEq

/-- The `guestOs` dispatch chain of `Deployer_Ubuntu.deploy` (lines 236-256):
a `Val` compares equal to a string literal only when it is that string. -/
def resolveProvisioner (v : Val) : Option Provisioner :=
  match v with
  | .str "Ubuntu" => some .ubuntu
  | .str "Debian GNU/Linux" => some .debian
  | .str "CentOS7" => some .centos7
  | .str "CentOS8" => some .centos8
  | .str "Alma8" => some .alma8
  | .str "Alma9" => some .alma9
  | _ => none

/-- The base `gen_user` (NodeDeployer_Ubuntu, lines 448-498): hostname, fqdn,
flags, and exactly two accounts — `ubuntu` (sudo group, NOPASSWD sudo rule)
and `root` — with every configured authorized key appended, in order, to both
accounts' (initially empty) key lists. -/
def gen_user_base (nd : Dict) : Except Err UserDoc := do
  let name ← getS nd "name"
  let dn ← getS nd "domainName"
  let keys ← getList nd "authorized-keys"
  .ok {
    hostname := name
    fqdn := name ++ "." ++ stripDots dn
    manage_etc_hosts := false
    ssh_pwauth := false
    disable_root := false
    users := [
      { name := "ubuntu", home := some "/home/ubuntu", shell := some "/bin/bash",
        groups := some "sudo", sudoRule := some "ALL=(ALL) NOPASSWD:ALL",
        lock_passwd := some false,
        passwd := some "$6$j0iQN7y/xQ7RCfkU$NIJ1ONRVdJumo1KJCkpwlezoaZOqAE/0IR2UIwmh/S0vQKuDVzRQ3bf2uU3CUSBCF2BB.6W3b8yJMQ9cNaa8E0",
        sshAuthorizedKeys := keys },
      { name := "root", sshAuthorizedKeys := keys }]
  }

/-- Dispatching `gen_user`: dynamic dispatch: the CentOS8 override (lines 591-595)
takes the base document and appends `bootcmd: - nmcli device connect eth0`;
Alma8/Alma9 inherit it via `pass`, the remaining variants use the base. -/
def gen_user (prov : Provisioner) (nd : Dict) (_mac : String) :
    Except Err UserDoc := do
  let base ← gen_user_base nd
  match prov with
  | .centos8 | .alma8 | .alma9 =>
      .ok { base with bootcmd := ["nmcli device connect eth0"] }
  | _ => .ok base

/-- The CentOS8 `gen_meta` (lines 597-614): a static `network-interfaces`
block with the node's address and gateway interpolated. -/
def gen_meta_centos8 (nd : Dict) : Except Err String := do
  let ip ← getV nd "ipAddress"
  let gw ← getV nd "gateway"
  .ok ("network-interfaces: |\n    iface eth0 inet static\n    address "
       ++ valToString ip
       ++ "\n    netmask 255.255.255.0\n    gateway "
       ++ valToString gw ++ "\n")

/-- Dispatching `gen_meta`: dynamic dispatch: the base (line 445-446) returns the
empty string; CentOS8 and its Alma heirs emit the static block. -/
def gen_meta (prov : Provisioner) (nd : Dict) (_mac : String) :
    Except Err String :=
  match prov with
  | .centos8 | .alma8 | .alma9 => gen_meta_centos8 nd
  | _ => .ok ""

/-- The Ubuntu-family `gen_netconf` (lines 500-534): netplan v2 document
matching the primary NIC by the generated MAC address. -/
def gen_netconf_base (nd : Dict) (mac : String) : Except Err Netplan := do
  let ip ← getV nd "ipAddress"
  let gw ← getV nd "gateway"
  let ns ← getV nd "nameserver"
  let dn ← getS nd "domainName"
  let mtu ← getV nd "mtu"
  .ok { matchMac := mac, setName := "eth0", addresses := [ip], gateway4 := gw,
        nsAddresses := [ns], nsSearch := [stripDots dn], mtu := mtu }

/-- Dispatching `gen_netconf`: dynamic dispatch: CentOS8/Alma8/Alma9 return the empty
string (lines 616-617), modelled as `none`; the rest emit the netplan doc. -/
def gen_netconf (prov : Provisioner) (nd : Dict) (mac : String) :
    Except Err (Option Netplan) :=
  match prov with
  | .centos8 | .alma8 | .alma9 => .ok none
  | _ => do
      let np ← gen_netconf_base nd mac
      .ok (some np)

/-! ### The generated launch script (`gen_startup_script`, lines 354-443) -/

/-- The device type of one `dataDiskSizes` entry: `size["type"]`, defaulting
to `virtio-blk-pci` when absent (lines 431-433). -/
def devTypeOf (v : Val) : String :=
  match v with
  | .dict d =>
      match dictLookup d "type" with
      | some t => valToString t
      | none => "virtio-blk-pci"
  | _ => "virtio-blk-pci"

/-- The per-data-disk drive/device lines appended to the launch script
(lines 426-438), numbering disks from `i`. -/
def dataDiskLines : List Val → Nat → String
  | [], _ => ""
  | v :: rest, i =>
      "-drive file=data" ++ toString i ++ ".qcow2,format=qcow2,if=none,id=D"
      ++ toString i ++ ",cache=none \\\n-device " ++ devTypeOf v
      ++ ",drive=D" ++ toString i ++ ",serial=qemu_drive_" ++ toString i
      ++ " \\\n" ++ dataDiskLines rest (i + 1)

/-- Everything in the rendered launch script before the primary-NIC
`-device` line: tap-creation shell functions and the head of the qemu
command line (literal braces of the shell template are written `\x7b`/`\x7d`). -/
def scriptPre (node qemubin cpus mem mtu : String) : String :=
  "#!/usr/bin/bash\n\nfunction create_tap\n\x7b\n    tapname=$1\n    brname=$2\n    [[ -z $tapname ]] && \x7b >&2 echo \"err: must specify a name for a tap device\"; return 1; \x7d\n    ip tuntap add dev $tapname mode tap\n    ip link set dev $tapname mtu "
  ++ mtu
  ++ "\n    ip link set dev $tapname up\n    ip link set dev $tapname master $brname\n\x7d\n\nPUBLIC_NAME="
  ++ node ++ "-pub\nPRIVATE_NAME=" ++ node ++ "-pri\nPRIVATE_NAME1=" ++ node
  ++ "-pri1\n\n[[ -z $PUBLIC_NAME ]] && \x7b echo \"err: VM name is missing in command line\"; exit 1; \x7d\nbr=`ip link show dev br0 | wc -l`\n[[ $br -eq 0 ]] && exit 1\ntap=`ip link show dev tap$PUBLIC_NAME 2>/dev/null | wc -l`\n[[ $tap -gt 0 ]] && \x7b ip link del dev tap$PUBLIC_NAME; \x7d\ncreate_tap tap$PUBLIC_NAME br0\n\n[[ -z $PRIVATE_NAME ]] && \x7b echo \"err: VM name is missing in command line\"; exit 1; \x7d\nbr=`ip link show dev br1 | wc -l`\n[[ $br -eq 0 ]] && exit 1\ntap=`ip link show dev tap$PRIVATE_NAME 2>/dev/null | wc -l`\n[[ $tap -gt 0 ]] && \x7b ip link del dev tap$PRIVATE_NAME; \x7d\ncreate_tap tap$PRIVATE_NAME br1\n\n[[ -z $PRIVATE_NAME1 ]] && \x7b echo \"err: VM name is missing in command line\"; exit 1; \x7d\nbr=`ip link show dev br1 | wc -l`\n[[ $br -eq 0 ]] && exit 1\ntap=`ip link show dev tap$PRIVATE_NAME1 2>/dev/null | wc -l`\n[[ $tap -gt 0 ]] && \x7b ip link del dev tap$PRIVATE_NAME1; \x7d\ncreate_tap tap$PRIVATE_NAME1 br1\n\n"
  ++ qemubin
  ++ " \\\n-display vnc=:0,to=100 \\\n-machine pc,accel=kvm \\\n-smp cpus="
  ++ cpus ++ " \\\n-cpu host \\\n-m " ++ mem
  ++ " \\\n-drive file=system.qcow2,format=qcow2,if=none,id=D0,cache=none \\\n-device virtio-blk-pci,drive=D0 \\\n-drive file=cloud-init/cloud-init-provisioning.iso,media=cdrom \\\n-netdev tap,id=mynet0,ifname=tap$PUBLIC_NAME,script=no,downscript=no \\\n"

/-- Everything in the rendered launch script after the primary-NIC `-device`
line: the two private NICs, the boot flag, data-disk lines, daemonize. -/
def scriptPost (mac1 mac2 : String) (dds : List Val) : String :=
  "-netdev tap,id=mynet1,ifname=tap$PRIVATE_NAME,script=no,downscript=no \\\n-device virtio-net-pci,netdev=mynet1,mac="
  ++ mac1
  ++ " \\\n-netdev tap,id=mynet2,ifname=tap$PRIVATE_NAME1,script=no,downscript=no \\\n-device virtio-net-pci,netdev=mynet2,mac="
  ++ mac2 ++ " \\\n-boot c \\\n" ++ dataDiskLines dds 1 ++ "--daemonize\n"

/-- Method `gen_startup_script`: the full rendered launch script. The `port`
argument is accepted, as in the source, but the template contains no
placeholder for it (the display is hard-wired to `vnc=:0,to=100`). -/
def gen_startup_script (node qemubin cpus mem mtu mac mac1 mac2 : String)
    (dds : List Val) (_port : Nat) : String :=
  scriptPre node qemubin cpus mem mtu
  ++ ("-device virtio-net-pci,netdev=mynet0,mac=" ++ mac ++ " \\\n")
  ++ scriptPost mac1 mac2 dds

/-! ### Filesystem model and path helpers -/

/-- Contents of a filesystem entry. -/
inductive FileContent where
  | text (s : String)                  -- file written by this program
  | userDoc (u : UserDoc)              -- user-data (structured YAML)
  | netDoc (n : Option Netplan)        -- network-config (none = empty file)
  | external (cmd : String)            -- produced by an external command
  | dir                                -- directory

/-- The filesystem: (path, content) entries, most recent write first. -/
abbrev FS := List (String × FileContent)

/-- Python `os.path.exists`. -/
def pathExists (fs : FS) (p : String) : Bool :=
  fs.any (fun e => e.1 == p)

/-- A filesystem write (create or overwrite). -/
def writeFS (fs : FS) (p : String) (c : FileContent) : FS :=
  (p, c) :: fs

/-- Python `os.path.basename` as applied to URLs in `basenameurl` (line 26-36). -/
def basenameurl (url : String) : String :=
  (url.splitOn "/").getLastD url

/-- Test `urlparse(path).scheme in ('http', 'https')`, for the URL shapes this
program handles. -/
def isHttpUrl (u : String) : Bool :=
  "http://".data.isPrefixOf u.data || "https://".data.isPrefixOf u.data

/-- Function `download_to` (lines 39-57): cache under the shared image dir keyed by
basename; on a cache miss the HTTP GET and file write are recorded as an
`.external` entry. Returns the cache file path. -/
def download_to (cloudImageDir : String) (fs : FS) (url : String) :
    String × FS :=
  let filepath := cloudImageDir ++ "/" ++ basenameurl url
  if pathExists fs filepath then (filepath, fs)
  else (filepath, writeFS fs filepath (.external ("GET " ++ url)))

/-- Function `check_path` (lines 60-75), translated exactly: if `path` does not exist
the code re-points `localpath` at the shared image dir and then tests the
*string* for emptiness (`if not localpath`) — not the existence of the new
path — raising `ValueError` only for an empty string. -/
def check_path (fs : FS) (cloudImageDir : String) (path : String) :
    Except Err String :=
  if pathExists fs path then .ok path
  else
    let localpath := cloudImageDir ++ "/" ++ path
    if localpath = "" then .error (.valueError (path ++ " does not exist!"))
    else .ok localpath

/-! ### Per-node provisioning (`NodeDeployer_*.create_node`, lines 283-352) -/

/-- Everything produced for one node by `create_node`. -/
structure NodeResult where
  name : String
  macs : List String              -- [mac, mac1, mac2] in draw order
  port : Nat                      -- the management port handed to create_node
  metaData : String
  userData : UserDoc
  networkConfig : Option Netplan
  startScript : String
  cmds : List String              -- external commands run, in order

/-- Entry size `size["size"]` of one `dataDiskSizes` entry (KeyError if absent). -/
def diskSizeOf (v : Val) : Except Err String :=
  match v with
  | .dict d =>
      match dictLookup d "size" with
      | some s => .ok (valToString s)
      | none => .error (.keyError "size")
  | _ => .error (.valueError "dataDiskSizes entry is not a dict")

/-- The `qemu-img create` commands for the data disks, numbering from `i`. -/
def dataDiskCmds (nodeDir : String) : List String → Nat → List String
  | [], _ => []
  | s :: rest, i =>
      ("qemu-img create -f qcow2 " ++ nodeDir ++ "/data" ++ toString i
        ++ ".qcow2 " ++ s) :: dataDiskCmds nodeDir rest (i + 1)

/-- Record the data-disk images as externally created files. -/
def writeDataDisks (fs : FS) (nodeDir : String) : List String → Nat → FS
  | [], _ => fs
  | s :: rest, i =>
      writeDataDisks
        (writeFS fs (nodeDir ++ "/data" ++ toString i ++ ".qcow2")
          (.external ("qemu-img create -f qcow2 " ++ nodeDir ++ "/data"
            ++ toString i ++ ".qcow2 " ++ s)))
        nodeDir rest (i + 1)

/-- Method `create_node(port)` for the variant `prov`, with the three MAC byte-draws
explicit. Steps, in source order: read the node settings, resolve the base
image (download on URL, then `check_path`), create the node directory tree,
draw the MACs, generate and write `meta-data` / `network-config` /
`user-data`, pack the cloud-init ISO, create the system and data disks
(external commands, recorded), and write `start.sh`. -/
def create_node (prov : Provisioner) (cloudImageDir : String) (nd : Dict)
    (fs : FS) (d0 d1 d2 : B3) (port : Nat) :
    Except Err (NodeResult × FS) := do
  let clusterName ← getS nd "clusterName"
  let imagePath ← getS nd "imagePath"
  let nodeName ← getS nd "name"
  let systemDiskSize ← getV nd "systemDiskSize"
  let dataDiskSizes ← getList nd "dataDiskSizes"
  let dl := if isHttpUrl imagePath then download_to cloudImageDir fs imagePath
            else (imagePath, fs)
  let localImage ← check_path dl.2 cloudImageDir dl.1
  let nodeDir := clusterName ++ "/" ++ nodeName
  let cloudInitDir := nodeDir ++ "/" ++ "cloud-init"
  let fs1 := writeFS (writeFS dl.2 nodeDir .dir) cloudInitDir .dir
  let mac := random_mac "qemu" d0
  let mac1 := random_mac "qemu" d1
  let mac2 := random_mac "qemu" d2
  let metaData ← gen_meta prov nd mac
  let netconf ← gen_netconf prov nd mac
  let user ← gen_user prov nd mac
  let qemubin ← getV nd "qemubin"
  let cpu ← getV nd "cpu"
  let mem ← getV nd "mem"
  let mtu ← getV nd "mtu"
  let sizes ← mapExc diskSizeOf dataDiskSizes
  let isoCmd := "cloud-localds -v --network-config=" ++ cloudInitDir
    ++ "/network-config " ++ cloudInitDir ++ "/cloud-init-provisioning.iso "
    ++ cloudInitDir ++ "/user-data " ++ cloudInitDir ++ "/meta-data"
  let sysCmd := "qemu-img create -f qcow2 -F qcow2 -b " ++ localImage ++ " "
    ++ nodeDir ++ "/system.qcow2 " ++ valToString systemDiskSize
  let script := gen_startup_script nodeName (valToString qemubin)
    (valToString cpu) (valToString mem) (valToString mtu)
    mac mac1 mac2 dataDiskSizes port
  let fs2 := writeFS fs1 (cloudInitDir ++ "/meta-data") (.text metaData)
  let fs3 := writeFS fs2 (cloudInitDir ++ "/network-config") (.netDoc netconf)
  let fs4 := writeFS fs3 (cloudInitDir ++ "/user-data") (.userDoc user)
  let fs5 := writeFS fs4 (cloudInitDir ++ "/cloud-init-provisioning.iso")
    (.external isoCmd)
  let fs6 := writeFS fs5 (nodeDir ++ "/system.qcow2") (.external sysCmd)
  let fs7 := writeDataDisks fs6 nodeDir sizes 1
  let fs8 := writeFS fs7 (nodeDir ++ "/start.sh") (.text script)
  .ok (⟨nodeName, [mac, mac1, mac2], port, metaData, user, netconf, script,
        isoCmd :: sysCmd :: dataDiskCmds nodeDir sizes 1⟩, fs8)

/-! ### Cluster deployment (`Deployer_Ubuntu.deploy`, lines 211-265) -/

/-- The per-node dispatch loop of `deploy` (lines 236-256): look up
`node["guestOs"]`, instantiate the matching NodeDeployer and call
`create_node(get_free_port())`; an unrecognized guest OS falls into the
final `else: pass` and the node is skipped. `mi`/`pi` count how many MAC
draws / port probes have been consumed so far. -/
def deploy_nodes (cloudImageDir : String) (ms : Nat → B3) (ps : Nat → Nat) :
    List Dict → FS → Nat → Nat → Except Err (List NodeResult × FS)
  | [], fs, _, _ => .ok ([], fs)
  | nd :: rest, fs, mi, pi =>
    match getV nd "guestOs" with
    | .error e => .error e
    | .ok g =>
      match resolveProvisioner g with
      | none => deploy_nodes cloudImageDir ms ps rest fs mi pi
      | some prov => do
          let rfs ← create_node prov cloudImageDir nd fs
            (ms mi) (ms (mi + 1)) (ms (mi + 2)) (ps pi)
          let rsfs ← deploy_nodes cloudImageDir ms ps rest rfs.2
            (mi + 3) (pi + 1)
          .ok (rfs.1 :: rsfs.1, rsfs.2)

/-- The outcome of one `deploy` call. -/
structure DeployResult where
  deployed : Bool                 -- the boolean `deploy` returns
  fs : FS                         -- the filesystem afterwards
  results : List NodeResult       -- per-node artifacts, in creation order
  startScript : Option String     -- start_cluster.sh content, when written

/-- One line of `start_cluster.sh`:
`"cd {node_name} && ./start.sh && cd .."` plus `os.linesep`. -/
def startClusterLine (nodeName : String) : String :=
  "cd " ++ nodeName ++ " && ./start.sh && cd .." ++ "\n"

/-- Method `Deployer_Ubuntu.deploy`: if the cluster directory already exists, print
a message and return `False` touching nothing; otherwise create the
directory, provision each node (consuming random draws and port probes),
then write `start_cluster.sh` with one line per configured node. -/
def deploy (cloudImageDir : String) (fs : FS) (s : Settings)
    (ms : Nat → B3) (ps : Nat → Nat) : Except Err DeployResult := do
  let clusterName ← getS s.base "clusterName"
  if pathExists fs clusterName then
    .ok ⟨false, fs, [], none⟩
  else
    let fs1 := writeFS fs clusterName .dir
    let rsfs ← deploy_nodes cloudImageDir ms ps s.nodes fs1 0 0
    let lines ← mapExc (fun nd => do
        let n ← getS nd "name"
        .ok (startClusterLine n)) s.nodes
    let script := String.join lines
    let fs2 := writeFS rsfs.2 (clusterName ++ "/" ++ "start_cluster.sh")
      (.text script)
    .ok ⟨true, fs2, rsfs.1, some script⟩

/-! ### Extractors used to state allocation properties -/

/-- Number of provisioned nodes in a `deploy_nodes` outcome. -/
def numResults (e : Except Err (List NodeResult × FS)) : Nat :=
  match e with
  | .ok (rs, _) => rs.length
  | .error _ => 0

/-- The `k`-th MAC address of the `i`-th provisioned node (defaults `""`). -/
def macAt (e : Except Err (List NodeResult × FS)) (i k : Nat) : String :=
  match e with
  | .ok (rs, _) =>
      match rs.get? i with
      | some r => (r.macs.get? k).getD ""
      | none => ""
  | .error _ => ""

/-- The management port of the `i`-th provisioned node (defaults `0`). -/
def portAt (e : Except Err (List NodeResult × FS)) (i : Nat) : Nat :=
  match e with
  | .ok (rs, _) =>
      match rs.get? i with
      | some r => r.port
      | none => 0
  | .error _ => 0

/-! ### Concrete configurations used to exercise the definitions -/

/-- A fully populated cluster-level settings dict (every inheritable key). -/
def exBase : Dict :=
  [("clusterName", .str "c1"), ("domainName", .str "chenp.net."),
   ("imagePath", .str "focal.img"), ("systemDiskSize", .str "32G"),
   ("dataDiskSizes", .list []), ("cpu", .nat 4), ("mem", .str "8G"),
   ("mtu", .nat 9000), ("gateway", .str "10.1.0.1"),
   ("nameserver", .str "10.1.0.1"), ("guestOs", .str "Ubuntu"),
   ("authorized-keys", .list [.str "keyA"]),
   ("qemubin", .str "qemu-system-x86_64")]

/-- A minimal node record inheriting everything from the cluster. -/
def exNode1 : Dict :=
  [("name", .str "node1"), ("ipAddress", .str "10.1.0.60/24")]

/-- A second minimal node record. -/
def exNode2 : Dict :=
  [("name", .str "node2"), ("ipAddress", .str "10.1.0.61/24")]

/-- A node record overriding the cluster's authorized-keys. -/
def exNodeB : Dict :=
  [("name", .str "node1"), ("ipAddress", .str "10.1.0.60/24"),
   ("authorized-keys", .list [.str "keyB"])]

/-- A node record that sets an inheritable key explicitly to null
(YAML `cpu: null`). -/
def exNodeNull : Dict := [("name", .str "node1"), ("cpu", Val.null)]

/-- A node record whose guestOs is not recognized by the dispatch chain. -/
def ndBad : Dict := [("name", .str "w1"), ("guestOs", .str "Windows 2022")]

/-- An example two-node cluster spec. -/
def exSettings : Settings := ⟨exBase, [exNode1, exNode2]⟩

/-- The flattened form of `exSettings`. -/
def exFlat : Settings :=
  match flatten_settings exSettings with
  | .ok s => s
  | .error _ => exSettings

/-- A degenerate random stream: every draw is the byte triple (0,0,0). -/
def msConst : Nat → B3 :=
  fun _ => ((0 : Fin 256), (0 : Fin 256), (0 : Fin 256))

/-- A degenerate port stream: every probe returns 7777. -/
def psConst : Nat → Nat := fun _ => 7777

/-- A random stream whose byte triples are pairwise distinct. -/
def msDistinct : Nat → B3 :=
  fun i => (Fin.ofNat i, (0 : Fin 256), (0 : Fin 256))

/-- A port stream whose probes are pairwise distinct. -/
def psDistinct : Nat → Nat := fun i => 5000 + i

/-- A filesystem in which the cluster directory `c1` already exists. -/
def fsC : FS := [("c1", FileContent.dir)]

/-- Total wrapper of `flatten_node` for building concrete resolved nodes. -/
def flattenNodeD (base nd : Dict) : Dict :=
  match flatten_node base nd with
  | .ok d => d
  | .error _ => nd

/-- The authorized-keys list of the `i`-th account of a `gen_user` outcome. -/
def userKeys (e : Except Err UserDoc) (i : Nat) : List Val :=
  match e with
  | .ok u =>
      match u.users.get? i with
      | some a => a.sshAuthorizedKeys
      | none => []
  | .error _ => []

/-- Look up key `k` on the `i`-th node of a `flatten_settings` outcome. -/
def lookupNodeVal (e : Except Err Settings) (i : Nat) (k : String) :
    Option Val :=
  match e with
  | .ok s =>
      match s.nodes.get? i with
      | some nd => dictLookup nd k
      | none => none
  | .error _ => none

/-! ## Helper lemmas -/

theorem data_append (s t : String) : (s ++ t).data = s.data ++ t.data := by
  cases s; cases t; rfl

theorem hexDigit_inj :
    ∀ a, a < 16 → ∀ b, b < 16 → hexDigit a = hexDigit b → a = b := by decide

theorem hex2_inj {a b : Nat} (ha : a < 256) (hb : b < 256)
    (h : hex2 a = hex2 b) : a = b := by
  have h2 : [hexDigit (a / 16), hexDigit (a % 16)]
      = [hexDigit (b / 16), hexDigit (b % 16)] := congrArg String.data h
  simp only [List.cons.injEq, and_true] at h2
  have hda := hexDigit_inj (a / 16) (by omega) (b / 16) (by omega) h2.1
  have hma := hexDigit_inj (a % 16) (by omega) (b % 16) (by omega) h2.2
  omega

theorem random_mac_qemu_eq (b : B3) :
    random_mac "qemu" b = "52:54:00:" ++ hex2 b.1.val ++ ":"
      ++ hex2 b.2.1.val ++ ":" ++ hex2 b.2.2.val := rfl

theorem random_mac_qemu_inj {a b : B3}
    (h : random_mac "qemu" a = random_mac "qemu" b) : a = b := by
  obtain ⟨a0, a1, a2⟩ := a
  obtain ⟨b0, b1, b2⟩ := b
  rw [random_mac_qemu_eq, random_mac_qemu_eq] at h
  have hd := congrArg String.data h
  simp only [data_append] at hd
  have eh : ∀ n : Nat, (hex2 n).data = [hexDigit (n / 16), hexDigit (n % 16)] :=
    fun _ => rfl
  simp only [eh] at hd
  simp only [List.cons_append, List.nil_append, List.cons.injEq, and_true,
    true_and] at hd
  obtain ⟨d00, d01, d10, d11, d20, d21⟩ := hd
  have h0 : a0.val = b0.val := by
    have := hexDigit_inj (a0.val / 16) (by omega) (b0.val / 16) (by omega) d00
    have := hexDigit_inj (a0.val % 16) (by omega) (b0.val % 16) (by omega) d01
    omega
  have h1 : a1.val = b1.val := by
    have := hexDigit_inj (a1.val / 16) (by omega) (b1.val / 16) (by omega) d10
    have := hexDigit_inj (a1.val % 16) (by omega) (b1.val % 16) (by omega) d11
    omega
  have h2 : a2.val = b2.val := by
    have := hexDigit_inj (a2.val / 16) (by omega) (b2.val / 16) (by omega) d20
    have := hexDigit_inj (a2.val % 16) (by omega) (b2.val % 16) (by omega) d21
    omega
  simp [Prod.ext_iff, Fin.ext_iff, h0, h1, h2]

theorem dictLookup_nil (k : String) : dictLookup [] k = none := rfl

theorem dictLookup_cons (e : String × Val) (d : Dict) (k : String) :
    dictLookup (e :: d) k = if e.1 == k then some e.2 else dictLookup d k := by
  simp only [dictLookup, List.find?]
  cases h : e.1 == k <;> simp [h]

theorem dictLookup_insert_self (d : Dict) (k : String) (v : Val) :
    dictLookup (dictInsert d k v) k = some v := by
  induction d with
  | nil => simp [dictInsert, dictLookup_cons]
  | cons e rest ih =>
    simp only [dictInsert]
    by_cases h : e.1 = k
    · rw [if_pos (by simpa using h), dictLookup_cons]
      simp
    · rw [if_neg (by simpa using h), dictLookup_cons, if_neg (by simpa using h)]
      exact ih

theorem dictLookup_insert_other (d : Dict) (k k2 : String) (v : Val)
    (hne : k2 ≠ k) : dictLookup (dictInsert d k v) k2 = dictLookup d k2 := by
  have hk2 : (k == k2) = false := by
    simp only [beq_eq_false_iff_ne, ne_eq]
    exact fun hh => hne hh.symm
  induction d with
  | nil =>
    simp [dictInsert, dictLookup_cons, dictLookup_nil, hk2]
  | cons e rest ih =>
    simp only [dictInsert]
    by_cases h : e.1 = k
    · rw [if_pos (by simpa using h), dictLookup_cons, dictLookup_cons]
      have h2 : (e.1 == k2) = false := by
        simp only [beq_eq_false_iff_ne, ne_eq, h]
        exact fun hh => hne hh.symm
      simp [hk2, h2]
    · rw [if_neg (by simpa using h), dictLookup_cons, dictLookup_cons, ih]

theorem dictContains_insert_self (d : Dict) (k : String) (v : Val) :
    dictContains (dictInsert d k v) k = true := by
  simp [dictContains, dictLookup_insert_self]

theorem dictContains_insert_mono (d : Dict) (k k2 : String) (v : Val)
    (h : dictContains d k2 = true) :
    dictContains (dictInsert d k v) k2 = true := by
  by_cases hk : k2 = k
  · subst hk; exact dictContains_insert_self d k2 v
  · simpa [dictContains, dictLookup_insert_other d k k2 v hk] using h

theorem flattenStep_ok {base acc : Dict} {k : String} {out : Dict}
    (h : flattenStep base acc k = .ok out) :
    (dictContains acc k = true ∧ out = acc) ∨
    (dictContains acc k = false ∧
      ∃ v, dictLookup base k = some v ∧ out = dictInsert acc k v) := by
  unfold flattenStep at h
  by_cases hc : dictContains acc k = true
  · rw [if_pos hc] at h
    cases h
    exact .inl ⟨hc, rfl⟩
  · have hc2 : dictContains acc k = false := by simpa using hc
    rw [if_neg (by simp [hc2])] at h
    cases hl : dictLookup base k with
    | none => rw [hl] at h; cases h
    | some v =>
      rw [hl] at h
      cases h
      exact .inr ⟨hc2, v, rfl, rfl⟩

theorem flattenStep_contains {base acc : Dict} {k : String} {out : Dict}
    (h : flattenStep base acc k = .ok out) (k2 : String)
    (hk : dictContains acc k2 = true) : dictContains out k2 = true := by
  rcases flattenStep_ok h with ⟨_, rfl⟩ | ⟨_, v, _, rfl⟩
  · exact hk
  · exact dictContains_insert_mono acc k k2 v hk

theorem flattenStep_contains_key {base acc : Dict} {k : String} {out : Dict}
    (h : flattenStep base acc k = .ok out) : dictContains out k = true := by
  rcases flattenStep_ok h with ⟨hc, rfl⟩ | ⟨_, v, _, rfl⟩
  · exact hc
  · exact dictContains_insert_self acc k v

theorem foldFlatten_mono (base : Dict) :
    ∀ (ks : List String) (acc out : Dict),
    List.foldlM (flattenStep base) acc ks = .ok out →
    ∀ k, dictContains acc k = true → dictContains out k = true := by
  intro ks
  induction ks with
  | nil =>
    intro acc out h k hk
    simp only [List.foldlM, pure, Except.pure] at h
    cases h
    exact hk
  | cons k0 ks ih =>
    intro acc out h k hk
    simp only [List.foldlM, bind, Except.bind] at h
    split at h
    · cases h
    · rename_i x acc1 hs
      exact ih acc1 out h k (flattenStep_contains hs k hk)

theorem foldFlatten_cover (base : Dict) :
    ∀ (ks : List String) (acc out : Dict),
    List.foldlM (flattenStep base) acc ks = .ok out →
    ∀ k ∈ ks, dictContains out k = true := by
  intro ks
  induction ks with
  | nil =>
    intro acc out h k hk
    simp at hk
  | cons k0 ks ih =>
    intro acc out h k hk
    simp only [List.foldlM, bind, Except.bind] at h
    split at h
    · cases h
    · rename_i x acc1 hs
      rcases List.mem_cons.mp hk with rfl | hk2
      · exact foldFlatten_mono base ks acc1 out h k (flattenStep_contains_key hs)
      · exact ih acc1 out h k hk2

theorem foldFlatten_id (base : Dict) :
    ∀ (ks : List String) (acc : Dict),
    (∀ k ∈ ks, dictContains acc k = true) →
    List.foldlM (flattenStep base) acc ks = .ok acc := by
  intro ks
  induction ks with
  | nil => intro acc _; rfl
  | cons k0 ks ih =>
    intro acc hall
    have h0 : flattenStep base acc k0 = .ok acc := by
      unfold flattenStep
      rw [if_pos (hall k0 (by simp))]
    simp only [List.foldlM, bind, Except.bind, h0]
    exact ih acc (fun k hk => hall k (by simp [hk]))

theorem foldFlatten_total (base : Dict) :
    ∀ (ks : List String) (acc : Dict),
    (∀ k ∈ ks, dictContains acc k = true ∨ dictContains base k = true) →
    ∃ out, List.foldlM (flattenStep base) acc ks = .ok out := by
  intro ks
  induction ks with
  | nil => intro acc _; exact ⟨acc, rfl⟩
  | cons k0 ks ih =>
    intro acc hall
    have h0 : ∃ acc1, flattenStep base acc k0 = .ok acc1 ∧
        ∀ k, dictContains acc k = true → dictContains acc1 k = true := by
      unfold flattenStep
      by_cases hc : dictContains acc k0 = true
      · exact ⟨acc, by rw [if_pos hc], fun _ hk => hk⟩
      · rcases hall k0 (by simp) with hc2 | hb
        · exact absurd hc2 hc
        · rcases (by simpa [dictContains] using hb :
              (dictLookup base k0).isSome = true) with h
          cases hl : dictLookup base k0 with
          | none => rw [hl] at h; cases h
          | some v =>
            refine ⟨dictInsert acc k0 v, ?_, ?_⟩
            · rw [if_neg (by simp [hc])]
            · exact fun k hk => dictContains_insert_mono acc k0 k v hk
    rcases h0 with ⟨acc1, hs, hmono⟩
    rcases ih acc1 (fun k hk => (hall k (by simp [hk])).imp (hmono k) id) with
      ⟨out, hout⟩
    exact ⟨out, by simp only [List.foldlM, bind, Except.bind, hs]; exact hout⟩

theorem foldFlatten_frozen (base : Dict) :
    ∀ (ks : List String) (acc out : Dict) (k : String),
    k ∉ ks →
    List.foldlM (flattenStep base) acc ks = .ok out →
    dictLookup out k = dictLookup acc k := by
  intro ks
  induction ks with
  | nil =>
    intro acc out k _ h
    simp only [List.foldlM, pure, Except.pure] at h
    cases h
    rfl
  | cons k0 ks ih =>
    intro acc out k hk h
    simp only [List.foldlM, bind, Except.bind] at h
    split at h
    · cases h
    · rename_i x acc1 hs
      have hk0 : k ≠ k0 := fun he => hk (by simp [he])
      have hks : k ∉ ks := fun he => hk (by simp [he])
      rw [ih acc1 out k hks h]
      rcases flattenStep_ok hs with ⟨_, rfl⟩ | ⟨_, v, _, rfl⟩
      · rfl
      · exact dictLookup_insert_other acc k0 k v hk0

theorem foldFlatten_inherit (base : Dict) :
    ∀ (ks : List String) (acc out : Dict) (k : String),
    ks.Nodup → k ∈ ks → dictContains acc k = false →
    List.foldlM (flattenStep base) acc ks = .ok out →
    dictLookup out k = dictLookup base k := by
  intro ks
  induction ks with
  | nil => intro acc out k _ hk; simp at hk
  | cons k0 ks ih =>
    intro acc out k hnd hk hc h
    simp only [List.foldlM, bind, Except.bind] at h
    split at h
    · cases h
    · rename_i x acc1 hs
      rcases List.mem_cons.mp hk with rfl | hk2
      · -- k is the head key: its value is inserted from the cluster dict
        -- here and never touched again (k is not in the tail, by Nodup)
        have hnotin : k ∉ ks := (List.nodup_cons.mp hnd).1
        rcases flattenStep_ok hs with ⟨hc2, rfl⟩ | ⟨_, v, hl, rfl⟩
        · rw [hc] at hc2; cases hc2
        · rw [foldFlatten_frozen base ks _ out k hnotin h]
          rw [dictLookup_insert_self, hl]
      · -- k sits in the tail; the head step cannot add it
        have hk0 : k ≠ k0 := by
          rintro rfl
          exact (List.nodup_cons.mp hnd).1 hk2
        have hc1 : dictContains acc1 k = false := by
          rcases flattenStep_ok hs with ⟨_, rfl⟩ | ⟨_, v, _, rfl⟩
          · exact hc
          · simpa [dictContains, dictLookup_insert_other acc k0 k v hk0,
              dictContains] using hc
        exact ih acc1 out k (List.nodup_cons.mp hnd).2 hk2 hc1 h

theorem foldFlatten_fail (base : Dict) :
    ∀ (ks : List String) (acc : Dict) (k : String),
    ks.Nodup → k ∈ ks → dictContains acc k = false →
    dictContains base k = false →
    ∃ e, List.foldlM (flattenStep base) acc ks = .error e := by
  intro ks
  induction ks with
  | nil => intro acc k _ hk; simp at hk
  | cons k0 ks ih =>
    intro acc k hnd hk hc hb
    rcases List.mem_cons.mp hk with rfl | hk2
    · have hstep : flattenStep base acc k = .error (.keyError k) := by
        unfold flattenStep
        rw [if_neg (by simp [hc])]
        have hln : dictLookup base k = none := by
          cases hl : dictLookup base k with
          | none => rfl
          | some v => simp [dictContains, hl] at hb
        rw [hln]
      refine ⟨.keyError k, ?_⟩
      simp only [List.foldlM, bind, Except.bind, hstep]
    · cases hs : flattenStep base acc k0 with
      | error e =>
        refine ⟨e, ?_⟩
        simp only [List.foldlM, bind, Except.bind, hs]
      | ok acc1 =>
        have hk0 : k ≠ k0 := by
          rintro rfl
          exact (List.nodup_cons.mp hnd).1 hk2
        have hc1 : dictContains acc1 k = false := by
          rcases flattenStep_ok hs with ⟨_, rfl⟩ | ⟨_, v, _, rfl⟩
          · exact hc
          · simpa [dictContains, dictLookup_insert_other acc k0 k v hk0]
              using hc
        rcases ih acc1 k (List.nodup_cons.mp hnd).2 hk2 hc1 hb with ⟨e, he⟩
        refine ⟨e, ?_⟩
        simp only [List.foldlM, bind, Except.bind, hs]
        exact he

theorem mapExc_fix {f : α → Except Err α} :
    ∀ l : List α, (∀ x ∈ l, f x = .ok x) → mapExc f l = .ok l := by
  intro l
  induction l with
  | nil => intro _; rfl
  | cons x xs ih =>
    intro hall
    simp only [mapExc, bind, Except.bind, hall x (by simp)]
    rw [ih (fun y hy => hall y (by simp [hy]))]

theorem mapExc_mem {f : α → Except Err β} :
    ∀ (l : List α) (l2 : List β), mapExc f l = .ok l2 →
    ∀ y ∈ l2, ∃ x ∈ l, f x = .ok y := by
  intro l
  induction l with
  | nil =>
    intro l2 h y hy
    cases h
    simp at hy
  | cons x xs ih =>
    intro l2 h y hy
    simp only [mapExc, bind, Except.bind] at h
    split at h
    · cases h
    · rename_i e1 y1 hfy
      split at h
      · cases h
      · rename_i e2 ys hys
        cases h
        rcases List.mem_cons.mp hy with rfl | hy2
        · exact ⟨x, by simp, hfy⟩
        · rcases ih ys hys y hy2 with ⟨x2, hx2, hfx2⟩
          exact ⟨x2, by simp [hx2], hfx2⟩

theorem mapExc_length {f : α → Except Err β} :
    ∀ (l : List α) (l2 : List β), mapExc f l = .ok l2 →
    l2.length = l.length := by
  intro l
  induction l with
  | nil => intro l2 h; cases h; rfl
  | cons x xs ih =>
    intro l2 h
    simp only [mapExc, bind, Except.bind] at h
    split at h
    · cases h
    · split at h
      · cases h
      · rename_i e1 y1 hfy e2 ys hys
        cases h
        simp [ih ys hys]

theorem mapExc_total {f : α → Except Err β} :
    ∀ l : List α, (∀ x ∈ l, ∃ y, f x = .ok y) →
    ∃ l2, mapExc f l = .ok l2 := by
  intro l
  induction l with
  | nil => intro _; exact ⟨[], rfl⟩
  | cons x xs ih =>
    intro hall
    rcases hall x (by simp) with ⟨y, hy⟩
    rcases ih (fun z hz => hall z (by simp [hz])) with ⟨ys, hys⟩
    exact ⟨y :: ys, by simp only [mapExc, bind, Except.bind, hy, hys]⟩

theorem mapExc_fail {f : α → Except Err β} :
    ∀ (l : List α) (x : α) (e : Err), x ∈ l → f x = .error e →
    ∃ e2, mapExc f l = .error e2 := by
  intro l
  induction l with
  | nil => intro x e hx; simp at hx
  | cons x0 xs ih =>
    intro x e hx hfx
    rcases List.mem_cons.mp hx with rfl | hx2
    · exact ⟨e, by simp only [mapExc, bind, Except.bind, hfx]⟩
    · cases hf0 : f x0 with
      | error e0 => exact ⟨e0, by simp only [mapExc, bind, Except.bind, hf0]⟩
      | ok y0 =>
        rcases ih x e hx2 hfx with ⟨e2, he2⟩
        exact ⟨e2, by simp only [mapExc, bind, Except.bind, hf0, he2]⟩

theorem mapExc_line : ∀ (nds : List Dict) (lines : List String),
    mapExc (fun nd => do
      let n ← getS nd "name"
      Except.ok (startClusterLine n)) nds = .ok lines →
    ∃ names, mapExc (fun nd => getS nd "name") nds = .ok names
      ∧ lines = names.map startClusterLine := by
  intro nds
  induction nds with
  | nil =>
    intro lines h
    cases h
    exact ⟨[], rfl, rfl⟩
  | cons nd nds ih =>
    intro lines h
    simp only [mapExc, bind, Except.bind] at h
    split at h
    · cases h
    · rename_i x1 y1 hy1
      split at h
      · cases h
      · rename_i x2 ys hys
        cases h
        split at hy1
        · cases hy1
        · rename_i x3 nm hnm
          cases hy1
          rcases ih ys hys with ⟨names, hnames, rfl⟩
          refine ⟨nm :: names, ?_, rfl⟩
          simp only [mapExc, bind, Except.bind, hnm, hnames]

theorem create_node_alloc {prov : Provisioner} {cid : String} {nd : Dict}
    {fs : FS} {d0 d1 d2 : B3} {port : Nat} {p : NodeResult × FS}
    (h : create_node prov cid nd fs d0 d1 d2 port = .ok p) :
    p.1.macs = [random_mac "qemu" d0, random_mac "qemu" d1,
      random_mac "qemu" d2] ∧ p.1.port = port := by
  simp only [create_node, bind, Except.bind] at h
  repeat' split at h
  all_goals cases h
  all_goals exact ⟨rfl, rfl⟩

theorem deploy_nodes_alloc {cid : String} {ms : Nat → B3} {ps : Nat → Nat} :
    ∀ (nodes : List Dict) (fs : FS) (mi pi : Nat) (rs : List NodeResult)
      (fs2 : FS),
    deploy_nodes cid ms ps nodes fs mi pi = .ok (rs, fs2) →
    ∀ i r, rs.get? i = some r →
      r.macs = [random_mac "qemu" (ms (mi + 3 * i)),
                random_mac "qemu" (ms (mi + 3 * i + 1)),
                random_mac "qemu" (ms (mi + 3 * i + 2))]
      ∧ r.port = ps (pi + i) := by
  intro nodes
  induction nodes with
  | nil =>
    intro fs mi pi rs fs2 h i r hi
    simp only [deploy_nodes] at h
    cases h
    simp at hi
  | cons nd rest ih =>
    intro fs mi pi rs fs2 h i r hi
    simp only [deploy_nodes, bind, Except.bind] at h
    split at h
    · cases h
    · split at h
      · exact ih fs mi pi rs fs2 h i r hi
      · split at h
        · cases h
        · split at h
          · cases h
          · rename_i x1 rfs hc x2 rsfs hr
            cases h
            cases i with
            | zero =>
              simp only [List.get?] at hi
              cases hi
              have halloc := create_node_alloc hc
              simpa using halloc
            | succ j =>
              simp only [List.get?] at hi
              have hrec := ih rfs.2 (mi + 3) (pi + 1) rsfs.1 rsfs.2 hr j r hi
              ring_nf at hrec ⊢
              exact hrec

theorem gen_netconf_mac {prov : Provisioner} {nd : Dict} {mac : String}
    {np : Netplan} (h : gen_netconf prov nd mac = .ok (some np)) :
    np.matchMac = mac := by
  cases prov
  case centos8 => simp only [gen_netconf] at h; cases h
  case alma8 => simp only [gen_netconf] at h; cases h
  case alma9 => simp only [gen_netconf] at h; cases h
  all_goals
    simp only [gen_netconf, bind, Except.bind] at h
    split at h
    · cases h
    · rename_i x v heq
      cases h
      simp only [gen_netconf_base, bind, Except.bind] at heq
      repeat' split at heq
      all_goals cases heq
      all_goals rfl

theorem create_node_out {prov : Provisioner} {cid : String} {nd : Dict}
    {fs : FS} {d0 d1 d2 : B3} {port : Nat} {p : NodeResult × FS}
    (h : create_node prov cid nd fs d0 d1 d2 port = .ok p) :
    ∃ (qemubin cpu mem mtu : Val) (nodeName : String) (dds : List Val),
      gen_netconf prov nd (random_mac "qemu" d0) = .ok p.1.networkConfig ∧
      p.1.startScript = gen_startup_script nodeName (valToString qemubin)
        (valToString cpu) (valToString mem) (valToString mtu)
        (random_mac "qemu" d0) (random_mac "qemu" d1) (random_mac "qemu" d2)
        dds port := by
  simp only [create_node, bind, Except.bind] at h
  repeat' split at h
  all_goals cases h
  all_goals exact ⟨_, _, _, _, _, _, by assumption, rfl⟩

/-! ## Claim theorems -/

/-- C1: `deploy` is not re-entrant. For every cluster spec and filesystem in
which the cluster directory already exists, a `deploy` call is a no-op that
returns `false` and leaves the filesystem — hence every file of the first
deployment — exactly as it was, provisioning no node and writing no script. -/
theorem deploy_existing_cluster_is_noop (cid : String) (fs : FS)
    (s : Settings) (ms : Nat → B3) (ps : Nat → Nat) (cn : String)
    (hcn : getS s.base "clusterName" = .ok cn)
    (hex : pathExists fs cn = true) :
    deploy cid fs s ms ps = .ok ⟨false, fs, [], none⟩ := by
  simp only [deploy, bind, Except.bind, hcn, hex, if_true]

/-- C1 witness: deploying `exSettings` over a filesystem that already holds
the `c1` cluster directory returns `false` and changes nothing. -/
theorem deploy_existing_cluster_is_noop_witness :
    deploy "/images" fsC exSettings msConst psConst
      = .ok ⟨false, fsC, [], none⟩ :=
  deploy_existing_cluster_is_noop "/images" fsC exSettings msConst psConst
    "c1" rfl rfl

/-- C2 counterexample: MAC and port allocation is NOT collision-checked.
In the deployment of the two-node cluster `exFlat` under the draw outcome
in which every `random.randint` call returns 0 and every `get_free_port`
probe returns 7777, both provisioned nodes receive the same primary MAC
address and the same management port — refuting the claim that any two
allocated MACs (and any two nodes' ports) are distinct for every outcome
of the allocator's random draws. -/
theorem mac_port_draws_collide :
    numResults (deploy_nodes "/images" msConst psConst exFlat.nodes [] 0 0) = 2
    ∧ macAt (deploy_nodes "/images" msConst psConst exFlat.nodes [] 0 0) 0 0
      = macAt (deploy_nodes "/images" msConst psConst exFlat.nodes [] 0 0) 1 0
    ∧ macAt (deploy_nodes "/images" msConst psConst exFlat.nodes [] 0 0) 0 0
      ≠ ""
    ∧ portAt (deploy_nodes "/images" msConst psConst exFlat.nodes [] 0 0) 0
      = portAt (deploy_nodes "/images" msConst psConst exFlat.nodes [] 0 0) 1 :=
  ⟨rfl, rfl, by decide, rfl⟩

/-- C2 amended: the allocator is a bare per-call draw with no cross-cluster
collision checking, so distinctness holds exactly for the outcomes whose
underlying draws are distinct: in any successful `deploy_nodes` run, two
allocated MAC addresses differ whenever the byte triples drawn for them
differ, and two nodes' management ports differ whenever the corresponding
port probes differ — and only then (equal draws give equal values, as the
counterexample shows). -/
theorem mac_port_distinct_when_draws_distinct (cid : String) (ms : Nat → B3)
    (ps : Nat → Nat) (nodes : List Dict) (fs : FS)
    (D : Except Err (List NodeResult × FS)) (i j k l : Nat)
    (hD : deploy_nodes cid ms ps nodes fs 0 0 = D)
    (hi : i < numResults D) (hj : j < numResults D)
    (hk : k < 3) (hl : l < 3) :
    (ms (3 * i + k) ≠ ms (3 * j + l) → macAt D i k ≠ macAt D j l)
    ∧ (i ≠ j → ps i ≠ ps j → portAt D i ≠ portAt D j) := by
  subst hD
  revert hi hj
  cases hE : deploy_nodes cid ms ps nodes fs 0 0 with
  | error e =>
    intro hi hj
    simp [numResults] at hi
  | ok p =>
    intro hi hj
    obtain ⟨rs, fs2⟩ := p
    simp only [numResults] at hi hj
    have hr1 : rs.get? i = some (rs.get ⟨i, hi⟩) := List.get?_eq_get hi
    have hr2 : rs.get? j = some (rs.get ⟨j, hj⟩) := List.get?_eq_get hj
    have h1 := deploy_nodes_alloc nodes fs 0 0 rs fs2 hE i _ hr1
    have h2 := deploy_nodes_alloc nodes fs 0 0 rs fs2 hE j _ hr2
    constructor
    · intro hms hcon
      simp only [macAt, hr1, hr2, h1.1, h2.1] at hcon
      apply hms
      interval_cases k <;> interval_cases l <;>
        simp only [List.get?, Option.getD_some] at hcon <;>
        · have hb := random_mac_qemu_inj hcon
          simpa using hb
    · intro hij hps hcon
      simp only [portAt, hr1, hr2] at hcon
      rw [h1.2, h2.2] at hcon
      simp only [Nat.zero_add] at hcon
      exact hps hcon

/-- C2 amended witness: under pairwise-distinct draws and probes, the two
nodes of `exFlat` receive distinct primary MACs and distinct ports. -/
theorem mac_port_distinct_when_draws_distinct_witness :
    macAt (deploy_nodes "/images" msDistinct psDistinct exFlat.nodes [] 0 0)
        0 0
      ≠ macAt (deploy_nodes "/images" msDistinct psDistinct exFlat.nodes []
        0 0) 1 0
    ∧ portAt (deploy_nodes "/images" msDistinct psDistinct exFlat.nodes []
        0 0) 0
      ≠ portAt (deploy_nodes "/images" msDistinct psDistinct exFlat.nodes []
        0 0) 1 := by
  have h := mac_port_distinct_when_draws_distinct "/images" msDistinct
    psDistinct exFlat.nodes []
    (deploy_nodes "/images" msDistinct psDistinct exFlat.nodes [] 0 0)
    0 1 0 0 rfl (by decide) (by decide) (by decide) (by decide)
  exact ⟨h.1 (by decide), h.2 (by decide) (by decide)⟩

/-- C3: the code does not fail on a missing image. `check_path`, translated
exactly, re-points a non-existing path at the shared image directory and
then tests the resulting *string* for emptiness instead of testing the new
path's existence, so on a filesystem containing neither `missing.qcow2` nor
`/images/missing.qcow2` it returns the joined path without raising, and
`create_node` runs to completion producing all artifacts — where the claim
(and the function's own docstring, and the spec's `PathError`) demand a
failure before any artifact is produced. -/
theorem check_path_missing_image_no_error :
    check_path [] "/images" "missing.qcow2" = .ok "/images/missing.qcow2"
    ∧ pathExists [] "missing.qcow2" = false
    ∧ pathExists [] "/images/missing.qcow2" = false
    ∧ (create_node .ubuntu "/images" (flattenNodeD exBase exNode1) []
        (msConst 0) (msConst 1) (msConst 2) 7777).isOk = true :=
  ⟨rfl, rfl, rfl, by decide⟩

/-- C4: settings flattening is idempotent. Whenever `flatten_settings`
succeeds, applying it to its own output succeeds and returns that output
unchanged — the resolved node set of two applications equals that of one. -/
theorem flatten_settings_idempotent (s s2 : Settings)
    (h : flatten_settings s = .ok s2) : flatten_settings s2 = .ok s2 := by
  simp only [flatten_settings, bind, Except.bind] at h ⊢
  split at h
  · cases h
  · rename_i e nodes2 hm
    cases h
    have hfix : ∀ nd ∈ nodes2, flatten_node s.base nd = .ok nd := by
      intro nd hnd
      rcases mapExc_mem _ nodes2 hm nd hnd with ⟨nd0, _, hnd0⟩
      have hcov := foldFlatten_cover s.base inheritableKeys nd0 nd hnd0
      exact foldFlatten_id s.base inheritableKeys nd (fun k hk => hcov k hk)
    rw [mapExc_fix nodes2 hfix]

/-- C4 witness: flattening the already-flattened `exFlat` returns `exFlat`. -/
theorem flatten_settings_idempotent_witness :
    flatten_settings exFlat = .ok exFlat :=
  flatten_settings_idempotent exSettings exFlat rfl

/-- C5 counterexample: flattening does not guarantee non-null values. In the
spec `⟨exBase, [exNodeNull]⟩` every inheritable key is defined (non-null) at
cluster level, yet the node sets `cpu` explicitly to null; `key not in node`
is false for a null-valued key, so flattening succeeds and leaves `cpu`
null on the resolved node — refuting "afterwards every inheritable key is
present and non-null on every node". -/
theorem flatten_keeps_explicit_null :
    (∀ k ∈ inheritableKeys, dictContains exBase k = true)
    ∧ (flatten_settings ⟨exBase, [exNodeNull]⟩).isOk = true
    ∧ lookupNodeVal (flatten_settings ⟨exBase, [exNodeNull]⟩) 0 "cpu"
        = some Val.null :=
  ⟨by decide, by decide, rfl⟩

/-- C5 amended: flattening is total and fails exactly on missing keys, with
presence (not non-nullness) guaranteed: if every inheritable key is present
at node or cluster level then `flatten_settings` succeeds and afterwards
every inheritable key is present (possibly null) on every node; if some
inheritable key is absent at both levels, it fails (the Python `KeyError`
standing for `MissingConfigKey`). -/
theorem flatten_totality_and_missing_key (s : Settings) :
    ((∀ nd ∈ s.nodes, ∀ k ∈ inheritableKeys,
        dictContains nd k = true ∨ dictContains s.base k = true) →
      ∃ s2, flatten_settings s = .ok s2 ∧
        ∀ nd2 ∈ s2.nodes, ∀ k ∈ inheritableKeys, dictContains nd2 k = true)
    ∧ ((∃ nd ∈ s.nodes, ∃ k ∈ inheritableKeys,
        dictContains nd k = false ∧ dictContains s.base k = false) →
      ∃ e, flatten_settings s = .error e) := by
  constructor
  · intro hall
    have htot : ∀ nd ∈ s.nodes, ∃ nd2, flatten_node s.base nd = .ok nd2 :=
      fun nd hnd => foldFlatten_total s.base inheritableKeys nd (hall nd hnd)
    rcases mapExc_total s.nodes htot with ⟨nodes2, hm⟩
    refine ⟨⟨s.base, nodes2⟩, ?_, ?_⟩
    · simp only [flatten_settings, bind, Except.bind, hm]
    · intro nd2 hnd2 k hk
      rcases mapExc_mem s.nodes nodes2 hm nd2 hnd2 with ⟨nd0, _, hnd0⟩
      exact foldFlatten_cover s.base inheritableKeys nd0 nd2 hnd0 k hk
  · rintro ⟨nd, hnd, k, hk, hcn, hcb⟩
    rcases foldFlatten_fail s.base inheritableKeys nd k (by decide) hk hcn hcb
      with ⟨e, he⟩
    rcases @mapExc_fail Dict Dict (flatten_node s.base) s.nodes nd e hnd he
      with ⟨e2, he2⟩
    exact ⟨e2, by simp only [flatten_settings, bind, Except.bind, he2]⟩

/-- C5 amended witness: both directions exercised — the fully keyed
`exSettings` flattens successfully with all keys present on all nodes, and
a spec missing `domainName` at both levels fails. -/
theorem flatten_totality_and_missing_key_witness :
    (∃ s2, flatten_settings exSettings = .ok s2 ∧
      ∀ nd2 ∈ s2.nodes, ∀ k ∈ inheritableKeys, dictContains nd2 k = true)
    ∧ ∃ e, flatten_settings
        ⟨[("clusterName", .str "c")], [[("name", .str "n")]]⟩ = .error e :=
  ⟨(flatten_totality_and_missing_key exSettings).1 (by decide),
   (flatten_totality_and_missing_key
      ⟨[("clusterName", .str "c")], [[("name", .str "n")]]⟩).2 (by decide)⟩

/-- C6 counterexample: the accounts' keys do not always equal the *cluster's*
configured authorized-keys. The cluster `exBase` configures
`authorized-keys = [keyA]`, but node `exNodeB` sets its own `[keyB]`;
flattening keeps the node's list and `gen_user` grants `keyB`, not the
cluster's `keyA`, to the accounts. -/
theorem user_data_keys_follow_node_override :
    dictLookup exBase "authorized-keys" = some (.list [.str "keyA"])
    ∧ userKeys (gen_user .ubuntu (flattenNodeD exBase exNodeB)
        "52:54:00:00:00:00") 0 = [Val.str "keyB"]
    ∧ ([Val.str "keyB"] : List Val) ≠ [Val.str "keyA"] := by
  refine ⟨rfl, rfl, fun h => ?_⟩
  have hs : "keyB" = "keyA" := by
    injection h with h1 h2
    injection h1
  exact absurd hs (by decide)

/-- C6 amended: for every provisioned node, the generated user-data document
contains exactly two accounts — a sudo-capable non-root `ubuntu` user and
`root` — and each account's authorized-keys list equals the node's
*resolved* authorized-keys list verbatim, order preserved; that resolved
list equals the cluster's configured list whenever the node record does not
set its own (second conjunct: flattening copies the cluster value of any
inheritable key the node does not define). -/
theorem user_data_two_accounts_resolved_keys :
    (∀ (prov : Provisioner) (nd : Dict) (mac : String) (u : UserDoc)
       (keys : List Val),
      dictLookup nd "authorized-keys" = some (.list keys) →
      gen_user prov nd mac = .ok u →
      ∃ a b, u.users = [a, b] ∧ a.name = "ubuntu" ∧ a.name ≠ "root" ∧
        a.groups = some "sudo" ∧ a.sudoRule = some "ALL=(ALL) NOPASSWD:ALL" ∧
        b.name = "root" ∧
        a.sshAuthorizedKeys = keys ∧ b.sshAuthorizedKeys = keys)
    ∧ (∀ (base nd nd2 : Dict) (k : String),
        k ∈ inheritableKeys → dictContains nd k = false →
        flatten_node base nd = .ok nd2 →
        dictLookup nd2 k = dictLookup base k) := by
  constructor
  · intro prov nd mac u keys hl hu
    simp only [gen_user, gen_user_base, bind, Except.bind, getList, hl] at hu
    split at hu
    · cases hu
    · rename_i x ubase hbase
      repeat' split at hbase
      all_goals cases hbase
      all_goals cases prov <;> cases hu <;>
        exact ⟨_, _, rfl, rfl,
          fun h2 => (by decide : ("ubuntu" : String) ≠ "root") h2, rfl, rfl,
          rfl, rfl, rfl⟩
  · intro base nd nd2 k hk hc h
    exact foldFlatten_inherit base inheritableKeys nd nd2 k (by decide) hk hc h

/-- C6 amended witness: on the flattened `exNode1` (which inherits the
cluster's `[keyA]`), user-data has exactly the two accounts, both granted
`keyA`; and flattening indeed copied the cluster's `mem` onto the node. -/
theorem user_data_two_accounts_resolved_keys_witness :
    (∃ u, gen_user .ubuntu (flattenNodeD exBase exNode1) "52:54:00:00:00:00"
        = .ok u ∧
      ∃ a b, u.users = [a, b] ∧ a.name = "ubuntu" ∧ a.name ≠ "root" ∧
        a.groups = some "sudo" ∧ a.sudoRule = some "ALL=(ALL) NOPASSWD:ALL" ∧
        b.name = "root" ∧ a.sshAuthorizedKeys = [Val.str "keyA"] ∧
        b.sshAuthorizedKeys = [Val.str "keyA"])
    ∧ dictLookup (flattenNodeD exBase exNode1) "mem"
        = dictLookup exBase "mem" :=
  ⟨⟨_, rfl, user_data_two_accounts_resolved_keys.1 .ubuntu
      (flattenNodeD exBase exNode1) "52:54:00:00:00:00" _ [Val.str "keyA"]
      rfl rfl⟩,
   user_data_two_accounts_resolved_keys.2 exBase exNode1
     (flattenNodeD exBase exNode1) "mem" (by decide) rfl rfl⟩

/-- C7: for every node `create_node` provisions whose network-config is
non-empty, the MAC address the netplan document matches on equals the MAC
bound to the primary NIC device line (`netdev=mynet0`) of that same node's
generated launch script — both are the first `random_mac "qemu"` draw. -/
theorem netconf_mac_matches_startup_script {prov : Provisioner}
    {cid : String} {nd : Dict} {fs : FS} {d0 d1 d2 : B3} {port : Nat}
    {p : NodeResult × FS} {np : Netplan}
    (h : create_node prov cid nd fs d0 d1 d2 port = .ok p)
    (hn : p.1.networkConfig = some np) :
    ∃ pre post, p.1.startScript
      = pre ++ ("-device virtio-net-pci,netdev=mynet0,mac="
          ++ np.matchMac ++ " \\\n") ++ post := by
  rcases create_node_out h with ⟨qb, cpu, mem, mtu, nodeName, dds, hnet,
    hscript⟩
  rw [hn] at hnet
  rw [gen_netconf_mac hnet]
  exact ⟨scriptPre nodeName (valToString qb) (valToString cpu)
    (valToString mem) (valToString mtu),
    scriptPost (random_mac "qemu" d1) (random_mac "qemu" d2) dds, hscript⟩

/-- C7 witness: provisioning the flattened `exNode1` yields a netplan
document and a launch script whose primary-NIC line carries the matched
MAC. -/
theorem netconf_mac_matches_startup_script_witness :
    ∃ p, create_node .ubuntu "/images" (flattenNodeD exBase exNode1) []
        (msConst 0) (msConst 1) (msConst 2) 7777 = .ok p ∧
      ∃ np, p.1.networkConfig = some np ∧
        ∃ pre post, p.1.startScript = pre
          ++ ("-device virtio-net-pci,netdev=mynet0,mac=" ++ np.matchMac
              ++ " \\\n") ++ post :=
  ⟨_, rfl, _, rfl,
    @netconf_mac_matches_startup_script .ubuntu "/images"
      (flattenNodeD exBase exNode1) [] (msConst 0) (msConst 1) (msConst 2)
      7777 _ _ rfl rfl⟩

/-- C8: CentOS8-family artifact semantics, inherited unchanged by Alma8 and
Alma9. For every node record and MAC: the CentOS8 meta-data is a static
`network-interfaces` block, its user-data carries the boot command enabling
the primary interface (`nmcli device connect eth0`), its network-config is
empty; and each Alma8/Alma9 generator is extensionally equal to the CentOS8
one (the subclasses are declared with `pass`). -/
theorem centos8_family_artifact_semantics (nd : Dict) (mac : String) :
    (∀ m, gen_meta .centos8 nd mac = .ok m →
      ∃ rest, m = "network-interfaces: |\n    iface eth0 inet static\n"
        ++ rest)
    ∧ (∀ u, gen_user .centos8 nd mac = .ok u →
        u.bootcmd = ["nmcli device connect eth0"])
    ∧ gen_netconf .centos8 nd mac = .ok none
    ∧ gen_meta .alma8 nd mac = gen_meta .centos8 nd mac
    ∧ gen_user .alma8 nd mac = gen_user .centos8 nd mac
    ∧ gen_netconf .alma8 nd mac = gen_netconf .centos8 nd mac
    ∧ gen_meta .alma9 nd mac = gen_meta .centos8 nd mac
    ∧ gen_user .alma9 nd mac = gen_user .centos8 nd mac
    ∧ gen_netconf .alma9 nd mac = gen_netconf .centos8 nd mac := by
  refine ⟨?_, ?_, rfl, rfl, rfl, rfl, rfl, rfl, rfl⟩
  · intro m hm
    simp only [gen_meta, gen_meta_centos8, bind, Except.bind] at hm
    repeat' split at hm
    all_goals cases hm
    exact ⟨"    address " ++ valToString _ ++
      "\n    netmask 255.255.255.0\n    gateway " ++ valToString _ ++ "\n",
      rfl⟩
  · intro u hu
    simp only [gen_user, gen_user_base, bind, Except.bind] at hu
    split at hu
    · cases hu
    · cases hu
      rfl

/-- C8 witness: on the flattened `exNode1`, the CentOS8 meta-data starts
with the static network-interfaces block, the user-data carries the nmcli
boot command, and the network-config is empty. -/
theorem centos8_family_artifact_semantics_witness :
    (∃ m, gen_meta .centos8 (flattenNodeD exBase exNode1) "m" = .ok m ∧
      ∃ rest, m = "network-interfaces: |\n    iface eth0 inet static\n"
        ++ rest)
    ∧ (∃ u, gen_user .centos8 (flattenNodeD exBase exNode1) "m" = .ok u ∧
        u.bootcmd = ["nmcli device connect eth0"])
    ∧ gen_netconf .centos8 (flattenNodeD exBase exNode1) "m" = .ok none :=
  ⟨⟨_, rfl,
    (centos8_family_artifact_semantics (flattenNodeD exBase exNode1) "m").1
      _ rfl⟩,
   ⟨_, rfl,
    (centos8_family_artifact_semantics (flattenNodeD exBase exNode1) "m").2.1
      _ rfl⟩,
   (centos8_family_artifact_semantics
      (flattenNodeD exBase exNode1) "m").2.2.1⟩

/-- C9: a node whose guestOs is unrecognized is silently skipped. Dropping
such a node from the node list leaves the per-node deployment loop's result
— node artifacts, filesystem effects, errors, and the random/port draws fed
to every other node — exactly unchanged: no error is raised for the node,
no directory or artifact is created for it, and the remaining nodes are
processed as if it were not there. -/
theorem deploy_skips_unrecognized_guest_os (cid : String) (ms : Nat → B3)
    (ps : Nat → Nat) (pre : List Dict) (n : Dict) (suf : List Dict) (g : Val)
    (hg : dictLookup n "guestOs" = some g)
    (hp : resolveProvisioner g = none) :
    ∀ (fs : FS) (mi pi : Nat),
    deploy_nodes cid ms ps (pre ++ n :: suf) fs mi pi
      = deploy_nodes cid ms ps (pre ++ suf) fs mi pi := by
  induction pre with
  | nil =>
    intro fs mi pi
    simp only [List.nil_append, deploy_nodes, getV, hg, hp]
  | cons q pre ih =>
    intro fs mi pi
    simp only [List.cons_append, deploy_nodes]
    cases hq : getV q "guestOs" with
    | error e => simp only [hq]
    | ok g2 =>
      simp only [hq]
      cases hp2 : resolveProvisioner g2 with
      | none => simp only [hp2]; exact ih fs mi pi
      | some prov =>
        simp only [hp2, bind, Except.bind, List.append_eq, ih]

/-- C9 witness: deploying `[node1, windows-node, node2]` equals deploying
`[node1, node2]` — the unrecognized node contributes nothing. -/
theorem deploy_skips_unrecognized_guest_os_witness :
    deploy_nodes "/images" msConst psConst
      ([flattenNodeD exBase exNode1] ++ ndBad
        :: [flattenNodeD exBase exNode2]) [] 0 0
    = deploy_nodes "/images" msConst psConst
      ([flattenNodeD exBase exNode1] ++ [flattenNodeD exBase exNode2])
      [] 0 0 :=
  deploy_skips_unrecognized_guest_os "/images" msConst psConst
    [flattenNodeD exBase exNode1] ndBad [flattenNodeD exBase exNode2]
    (.str "Windows 2022") rfl rfl [] 0 0

/-- C10: whenever `deploy` succeeds with a fresh cluster directory, the
written `start_cluster.sh` is exactly one line
`cd <nodeName> && ./start.sh && cd ..` (plus `os.linesep`) per node of the
specification, in specification order, for every node — the loop runs over
all configured nodes, including those skipped for an unrecognized guestOs,
so the script may reference node directories that were never created. -/
theorem start_cluster_script_covers_all_nodes (cid : String) (fs : FS)
    (s : Settings) (ms : Nat → B3) (ps : Nat → Nat) (r : DeployResult)
    (h : deploy cid fs s ms ps = .ok r) (hd : r.deployed = true) :
    ∃ names, mapExc (fun nd => getS nd "name") s.nodes = .ok names ∧
      names.length = s.nodes.length ∧
      r.startScript = some (String.join (names.map startClusterLine)) := by
  simp only [deploy, bind, Except.bind] at h
  split at h
  · cases h
  · split at h
    · cases h
      cases hd
    · split at h
      · cases h
      · rename_i x1 cn hcn hex x2 rsfs hrs
        split at h
        · cases h
        · rename_i x3 lines hlines
          cases h
          rcases mapExc_line s.nodes lines hlines with ⟨names, hnames, rfl⟩
          exact ⟨names, hnames, mapExc_length s.nodes names hnames ▸ rfl, rfl⟩

/-- C10 witness: deploying the two-node `exFlat` on an empty filesystem
writes a start script with exactly the two per-node lines in spec order. -/
theorem start_cluster_script_covers_all_nodes_witness :
    ∃ r, deploy "/images" [] exFlat msConst psConst = .ok r ∧
      r.deployed = true ∧
      ∃ names, mapExc (fun nd => getS nd "name") exFlat.nodes = .ok names ∧
        names.length = exFlat.nodes.length ∧
        r.startScript = some (String.join (names.map startClusterLine)) :=
  ⟨_, rfl, rfl, start_cluster_script_covers_all_nodes "/images" [] exFlat
    msConst psConst _ rfl rfl⟩
